import Mathlib

set_option maxRecDepth 40000

/-!
Verification development for the RAG survey-analysis backend.

Shallow embedding of `src/backend/Vectorstore.py` and `src/backend/api.py`.
Document text is modelled as `List Char` (Python `str`), byte-level details of
PDF parsing, embeddings, FAISS similarity search and LLM completions are
treated as external black boxes (oracles/parameters), exactly as the code
treats them: `PyPDF2`/OCR outcomes are inputs, `HuggingFaceEndpoint` calls are
an oracle `LLM → String → String`, and retrieval is an oracle parameter.
-/

/-- Python whitespace test used by `str.strip()` (ASCII whitespace:
space, tab, newline, carriage return, vertical tab, form feed). -/
def pyIsSpace (c : Char) : Bool :=
  c = ' ' || c = '\t' || c = '\n' || c = '\r' || c = Char.ofNat 11 || c = Char.ofNat 12

/-- Python `str.strip()` on a character list. -/
def pyStrip (s : List Char) : List Char :=
  ((s.dropWhile pyIsSpace).reverse.dropWhile pyIsSpace).reverse

/-- Convenience: the character list of a string literal. -/
def chars (s : String) : List Char := s.data

/-- Lookup in a Python-dict-like association list (`d.get(k)` / `d[k]`). -/
def dictGet {α : Type} (d : List (String × α)) (k : String) : Option α :=
  match d with
  | [] => none
  | (k', v) :: rest => if k' = k then some v else dictGet rest k

/-- Python dict assignment `d[k] = v`: replaces the binding in place if the
key is present, otherwise appends it. -/
def dictInsert {α : Type} (k : String) (v : α) : List (String × α) → List (String × α)
  | [] => [(k, v)]
  | (k', v') :: rest => if k' = k then (k, v) :: rest else (k', v') :: dictInsert k v rest

/-- Metadata attached to every page/chunk `Document`
(`{"source": pdf, "page": page_num}` in `Vectorstore.py`). -/
structure Metadata where
  source : String
  page : Nat
deriving DecidableEq, Repr

/-- A langchain `Document`: page content plus metadata. -/
structure Document where
  page_content : List Char
  metadata : Metadata
deriving DecidableEq, Repr

/-! ## Chunker: `CharacterTextSplitter(separator="\n", chunk_size=1000,
chunk_overlap=200, length_function=len)` as used by `get_chunks`.

The splitter is the langchain `langchain_text_splitters.CharacterTextSplitter`:
`split_text` splits the text on the separator, drops empty segments, and merges
the segments back greedily with `_merge_splits`, keeping a sliding overlap.
The embedding below reproduces that algorithm with the separator fixed to the
single character `'\n'` (separator length 1), as `get_chunks` configures it. -/

/-- Split on `'\n'`, keeping empty segments (Python `re.split`). -/
def splitOnSepAux : List Char → List Char → List (List Char)
  | [], acc => [acc.reverse]
  | c :: rest, acc =>
    if c = '\n' then acc.reverse :: splitOnSepAux rest [] else splitOnSepAux rest (c :: acc)

/-- `_split_text_with_regex(text, "\n", keep_separator=False)`:
split on the separator and drop empty segments. -/
def splitTextWithSep (s : List Char) : List (List Char) :=
  (splitOnSepAux s []).filter (fun seg => seg ≠ [])

/-- `"\n".join(docs)`. -/
def joinSep : List (List Char) → List Char
  | [] => []
  | [d] => d
  | d :: ds => d ++ '\n' :: joinSep ds

/-- `TextSplitter._join_docs(docs, "\n")`: join with the separator, strip
whitespace, and return `none` for the empty result. -/
def joinDocs (docs : List (List Char)) : Option (List Char) :=
  let text := pyStrip (joinSep docs)
  if text = [] then none else some text

/-- The inner `while` loop of `TextSplitter._merge_splits`, popping leading
segments of `current_doc` until the running total fits inside the overlap
budget.  `dLen` is the length of the pending segment.  (With the invariant
`total = length of the joined current_doc`, the loop always exits before
`current_doc` is exhausted; the `[]` case returns, matching the loop guard,
which is false there since `total = 0`.) -/
def popWhile (chunkSize chunkOverlap dLen : Nat) :
    List (List Char) → Nat → List (List Char) × Nat
  | [], total => ([], total)
  | c :: rest, total =>
    if chunkOverlap < total ∨ (chunkSize < total + dLen + 1 ∧ 0 < total) then
      popWhile chunkSize chunkOverlap dLen rest
        (total - (c.length + if rest.isEmpty then 0 else 1))
    else (c :: rest, total)

/-- The main loop of `TextSplitter._merge_splits` (separator `"\n"`, so the
separator length is 1): greedily accumulate segments into `current_doc`,
flushing a joined chunk whenever the next segment would overflow `chunkSize`,
then retain a `chunkOverlap`-sized tail as the start of the next chunk. -/
def mergeSplits (chunkSize chunkOverlap : Nat) :
    List (List Char) → List (List Char) → Nat → List (List Char) → List (List Char)
  | [], currentDoc, _total, docs =>
    match joinDocs currentDoc with
    | none => docs
    | some doc => docs ++ [doc]
  | d :: rest, currentDoc, total, docs =>
    let dLen := d.length
    if chunkSize < total + dLen + (if currentDoc.isEmpty then 0 else 1) then
      if currentDoc.isEmpty then
        mergeSplits chunkSize chunkOverlap rest (currentDoc ++ [d])
          (total + dLen + (if currentDoc.isEmpty then 0 else 1)) docs
      else
        let docs' :=
          match joinDocs currentDoc with
          | none => docs
          | some doc => docs ++ [doc]
        let popped := popWhile chunkSize chunkOverlap dLen currentDoc total
        mergeSplits chunkSize chunkOverlap rest (popped.1 ++ [d])
          (popped.2 + dLen + (if popped.1.isEmpty then 0 else 1)) docs'
    else
      mergeSplits chunkSize chunkOverlap rest (currentDoc ++ [d])
        (total + dLen + (if currentDoc.isEmpty then 0 else 1)) docs

/-- `CharacterTextSplitter.split_text`. -/
def split_text (chunkSize chunkOverlap : Nat) (text : List Char) : List (List Char) :=
  mergeSplits chunkSize chunkOverlap (splitTextWithSep text) [] 0 []

/-- `TextSplitter.split_documents`: split each document's text and copy its
metadata onto every resulting chunk. -/
def split_documents (chunkSize chunkOverlap : Nat) (docs : List Document) : List Document :=
  (docs.map (fun doc =>
    (split_text chunkSize chunkOverlap doc.page_content).map
      (fun c => Document.mk c doc.metadata))).flatten

/-- `Vectorstore.get_chunks`: the splitter with `chunk_size=1000`,
`chunk_overlap=200`, `separator="\n"`. -/
def get_chunks (raw_text_documents : List Document) : List Document :=
  split_documents 1000 200 raw_text_documents

/-! ## Text extractor: `Vectorstore.get_pdf_text`.

`PyPDF2` and the OCR stack (`pdf2image` + `pytesseract`) are external; a page
is modelled by what they would return for it: the directly extracted text
(`page.extract_text()`, with Python `None` modelled as the empty list) and the
outcome of the OCR attempt on that page. -/

/-- Outcome of the OCR block for one page: OCR text produced
(`convert_from_path` returned images and `pytesseract` ran), no images
produced, or an exception raised anywhere inside the `try` block. -/
inductive OcrOutcome where
  | ok (text : List Char)
  | noImages
  | raised (msg : String)
deriving DecidableEq, Repr

/-- One PDF page as seen by the extractor. -/
structure PdfPage where
  extracted : List Char
  ocr : OcrOutcome
deriving DecidableEq, Repr

/-- Parsed content of one PDF file (the pages `PdfReader` yields). -/
structure PdfFile where
  pages : List PdfPage
deriving DecidableEq, Repr

/-- The per-page body of `get_pdf_text` (lines 20–54 of `Vectorstore.py`):
direct extraction, OCR fallback, warnings printed, and a `Document` built for
the page no matter what.  Returns the page `Document` and the warnings
emitted (modelling the `print` side channel). -/
def extract_page (pdf : String) (page_num : Nat) (page : PdfPage) : Document × List String :=
  let pn := toString page_num
  let body : List Char × List String :=
    if page.extracted ≠ [] ∧ pyStrip page.extracted ≠ [] then
      (page.extracted, [])
    else
      let w0 := "Warning: No text extracted from page " ++ pn ++ " in " ++ pdf ++
        ", attempting OCR."
      match page.ocr with
      | .raised e =>
        ([], [w0, "Warning: OCR failed for page " ++ pn ++ " in " ++ pdf ++ ": " ++ e])
      | .noImages =>
        ([], [w0, "Warning: Could not convert page " ++ pn ++ " to image for OCR in " ++
          pdf ++ "."])
      | .ok t =>
        if t ≠ [] ∧ pyStrip t ≠ [] then
          (t, [w0, "OCR succeeded on page " ++ pn ++ " in " ++ pdf ++ "."])
        else
          ([], [w0, "Warning: OCR returned no text on page " ++ pn ++ " in " ++ pdf ++ "."])
  let warns :=
    if pyStrip body.1 = [] then
      body.2 ++ ["Warning: No text extracted from page " ++ pn ++ " in " ++ pdf]
    else body.2
  (⟨body.1, ⟨pdf, page_num⟩⟩, warns)

/-- `for page_num, page in enumerate(pdf_reader.pages, start=1)`. -/
def extract_pages (pdf : String) : Nat → List PdfPage → List Document × List String
  | _, [] => ([], [])
  | n, p :: ps =>
    let r := extract_page pdf n p
    let rest := extract_pages pdf (n + 1) ps
    (r.1 :: rest.1, r.2 ++ rest.2)

/-- `Vectorstore.get_pdf_text`: one `Document` per page across all files, in
input order and ascending page order; second component is the warnings
printed.  Each input is a file path paired with the parsed file the external
`PdfReader` yields for it. -/
def get_pdf_text (docs : List (String × PdfFile)) : List Document × List String :=
  match docs with
  | [] => ([], [])
  | (path, f) :: rest =>
    let r := extract_pages path 1 f.pages
    let rrest := get_pdf_text rest
    (r.1 ++ rrest.1, r.2 ++ rrest.2)

/-! ## Embedder / indexer: `Vectorstore.get_vectorstore`.

The embeddings model and FAISS are black boxes; the index is modelled as the
chunk list it was built over.  The only repository-level control flow is the
empty-input check, which raises `ValueError`. -/

/-- The FAISS index, modelled as the documents it indexes. -/
structure Vectorstore where
  docs : List Document
deriving DecidableEq, Repr

/-- `Vectorstore.get_vectorstore`: rejects an empty chunk list with
`ValueError("No text chunks provided to generate embeddings.")`; otherwise
builds the index (external FAISS construction modelled as succeeding). -/
def get_vectorstore (chunked_text : List Document) : Except String Vectorstore :=
  if chunked_text.isEmpty then .error "No text chunks provided to generate embeddings."
  else .ok ⟨chunked_text⟩

/-! ## `api.py`: backends, conversation chain, and the four endpoints.

The three LLM modules (`Llama3.py`, `Mixtral.py`, `Phi.py`) each build one
`HuggingFaceEndpoint` object; completions are an oracle parameter
`LLM → String → String`.  FastAPI plumbing (transport, status codes) is
modelled by response constructors mirroring each handler's returns. -/

/-- The three backend objects importable in `api.py`. -/
inductive LLM where
  | llama3
  | mixtral_llm
  | phi
deriving DecidableEq, Repr

/-- `api.get_llm`: resolve a backend identifier string, defaulting to `phi`. -/
def get_llm (llm_choice : String) : LLM :=
  if llm_choice = "Llama 3.1" then .llama3
  else if llm_choice = "Mixtral" then .mixtral_llm
  else .phi

/-- A `ConversationalRetrievalChain` as built by `get_conversation_chain`:
the resolved LLM, the retriever over the index, and the
`ConversationBufferMemory` contents as (question, answer) turns. -/
structure ConversationChain where
  llm : LLM
  retriever : Vectorstore
  memory : List (String × String)
deriving DecidableEq, Repr

/-- `api.get_conversation_chain`: resolve the LLM and pair it with the
vectorstore's retriever and a fresh empty memory. -/
def get_conversation_chain (vectorstore : Vectorstore) (llm_choice : String) :
    ConversationChain :=
  ⟨get_llm llm_choice, vectorstore, []⟩

/-- The process-wide mutable state of `api.py`: `app.state.conversation`
(absent or `None` modelled as `none`), the in-memory
`uploaded_files_registry` (filename → path), and the files on disk under
`PDF_DIR` (path → parsed content). -/
structure AppState where
  conversation : Option ConversationChain
  registry : List (String × String)
  files : List (String × PdfFile)
deriving DecidableEq, Repr

/-- `PDF_DIR` in `api.py`. -/
def PDF_DIR : String := "/tmp/uploaded_pdfs"

/-- `os.path.join(PDF_DIR, filename)` for a relative filename. -/
def filePathFor (filename : String) : String := PDF_DIR ++ "/" ++ filename

/-- `os.path.basename`. -/
def basenameAux : List Char → List Char → List Char
  | [], acc => acc.reverse
  | c :: rest, acc => if c = '/' then basenameAux rest [] else basenameAux rest (c :: acc)

/-- `os.path.basename` on a path string. -/
def basename (p : String) : String := String.mk (basenameAux p.data [])

/-- `file.filename.lower().endswith('.pdf')`. -/
def endsWithPdf (filename : String) : Bool :=
  (chars ".pdf").isSuffixOf (filename.data.map Char.toLower)

/-- One file of an upload batch: its client-sent filename and the PDF content
the uploaded bytes parse to (opaque to the upload handler itself). -/
structure UploadFile where
  filename : String
  content : PdfFile
deriving DecidableEq, Repr

/-- Responses of `upload_pdfs`: 200 with the saved basenames, or
400 `"File {f} is not a PDF"`.  (The 500 save-failure branch guards an
external filesystem fault and is unreachable in the model, where a completed
write always exists.) -/
inductive UploadResponse where
  | ok (names : List String)
  | notPdf (filename : String)
deriving DecidableEq, Repr

/-- The `for file in files` loop of `upload_pdfs`, threading the filesystem,
the registry and the `saved_files` accumulator. -/
def uploadLoop (fs : List (String × PdfFile)) (reg : List (String × String))
    (saved : List String) :
    List UploadFile → UploadResponse × List (String × PdfFile) × List (String × String)
  | [] => (.ok (saved.map basename), fs, reg)
  | f :: rest =>
    if endsWithPdf f.filename then
      let path := filePathFor f.filename
      uploadLoop (dictInsert path f.content fs) (dictInsert f.filename path reg)
        (saved ++ [path]) rest
    else (.notPdf f.filename, fs, reg)

/-- `api.upload_pdfs`. -/
def upload_pdfs (st : AppState) (files : List UploadFile) : UploadResponse × AppState :=
  let r := uploadLoop st.files st.registry [] files
  (r.1, { st with files := r.2.1, registry := r.2.2 })

/-- Responses of `process_pdfs`: 200 success, 404 file-not-found, or the 500
handler for pipeline exceptions (in the model: the empty-chunks
`ValueError`). -/
inductive ProcessResponse where
  | ok (llm : String)
  | fileNotFound (name : String)
  | err (msg : String)
deriving DecidableEq, Repr

/-- `all_selected_files` of `process_pdfs`/`compare_reports`:
`uploaded_files_registry.get(pdf, os.path.join(PDF_DIR, pdf))`. -/
def resolvePath (st : AppState) (pdf : String) : String :=
  (dictGet st.registry pdf).getD (filePathFor pdf)

/-- `api.process_pdfs`: resolve paths, fail 404 on the first missing file,
then run extract → chunk → index and, on success, install the new
conversation chain in one assignment; any pipeline failure leaves the state
untouched. -/
def process_pdfs (st : AppState) (llm_choice : String) (pdf_files : List String) :
    ProcessResponse × AppState :=
  let all_selected_files := pdf_files.map (resolvePath st)
  match all_selected_files.find? (fun p => (dictGet st.files p).isNone) with
  | some p => (.fileNotFound (basename p), st)
  | none =>
    let raw_text :=
      (get_pdf_text (all_selected_files.map (fun p => (p, (dictGet st.files p).getD ⟨[]⟩)))).1
    let text_chunks := get_chunks raw_text
    match get_vectorstore text_chunks with
    | .error e => (.err ("Error processing PDFs: " ++ e), st)
    | .ok vs =>
      (.ok llm_choice, { st with conversation := some (get_conversation_chain vs llm_choice) })

/-! ## The conversational retrieval chain invocation and `ask_question`. -/

/-- The `custom_template` standalone-question prompt of `api.py`, with the
history rendered the way `ConversationBufferMemory(return_messages=True)`
renders turns when stuffed into a prompt (modelled buffer format). -/
def formatHistory (h : List (String × String)) : String :=
  String.intercalate "\n" (h.map (fun qa => "Human: " ++ qa.1 ++ "\nAI: " ++ qa.2))

/-- `Standalone_Question_Prompt` instantiated. -/
def condensePrompt (history : List (String × String)) (question : String) : String :=
  "Given the following conversation and a follow-up question, rephrase the follow-up " ++
  "question to be a standalone question, in its original language. Chat History: " ++
  formatHistory history ++ " Follow Up Input: " ++ question ++ " Standalone question:"

/-- The grounded QA prompt the chain's combine-documents step submits:
retrieved chunk texts stuffed as context ahead of the (standalone) question
(langchain's default stuff-chain template, abridged). -/
def qaPrompt (docs : List Document) (question : String) : String :=
  "Use the following pieces of context to answer the question at the end.\n\n" ++
  String.intercalate "\n\n" (docs.map (fun d => String.mk d.page_content)) ++
  "\n\nQuestion: " ++ question ++ "\nHelpful Answer:"

/-- Output of one chain invocation: the response dict
(`answer`, `chat_history`, `source_documents`) plus, for observation, the
backend the chain submitted its prompts to (always `chain.llm` — the chain
holds the LLM it was built with). -/
structure ChainResult where
  answer : String
  chat_history : List (String × String)
  source_documents : List Document
  usedLLM : LLM
deriving DecidableEq, Repr

/-- `app.state.conversation({"question": q})`: `ConversationalRetrievalChain`
semantics — condense the question against the buffered history when the
history is non-empty, retrieve against the chain's retriever, answer with the
chain's LLM, and append the new turn to the chain's memory.  `oracle` models
the hosted LLM endpoints, `retrieve` the vector index's similarity search. -/
def runChain (oracle : LLM → String → String)
    (retrieve : Vectorstore → String → List Document)
    (chain : ConversationChain) (question : String) : ChainResult × ConversationChain :=
  let history := chain.memory
  let standalone :=
    if history.isEmpty then question
    else oracle chain.llm (condensePrompt history question)
  let docs := retrieve chain.retriever standalone
  let answer := oracle chain.llm (qaPrompt docs standalone)
  (⟨answer, history, docs, chain.llm⟩, { chain with memory := history ++ [(question, answer)] })

/-- The JSON body of `/ask_question/`. -/
structure QuestionInput where
  question : String
  llm_choice : String
deriving DecidableEq, Repr

/-- A source citation of the ask response. -/
structure Citation where
  page : Nat
  file : String
  snippet : List Char
deriving DecidableEq, Repr

/-- Responses of `ask_question`: 200 with answer/history/sources, or the 400
`"No conversation chain found. Process PDFs first."` guard. -/
inductive AskResponse where
  | ok (answer : String) (chat_history : List (String × String)) (sources : List Citation)
  | notReady (msg : String)
deriving DecidableEq, Repr

/-- `api.ask_question`. -/
def ask_question (oracle : LLM → String → String)
    (retrieve : Vectorstore → String → List Document)
    (st : AppState) (question_input : QuestionInput) : AskResponse × AppState :=
  match st.conversation with
  | none => (.notReady "No conversation chain found. Process PDFs first.", st)
  | some chain =>
    let r := runChain oracle retrieve chain question_input.question
    let sources := r.1.source_documents.map (fun d =>
      Citation.mk d.metadata.page (basename d.metadata.source) (d.page_content.take 200))
    (.ok r.1.answer r.1.chat_history sources, { st with conversation := some r.2 })

/-- Observer: the backend the ask operation submits the question to
(`none` when the not-ready guard fires and no LLM is called). -/
def askUsedLLM (oracle : LLM → String → String)
    (retrieve : Vectorstore → String → List Document)
    (st : AppState) (question_input : QuestionInput) : Option LLM :=
  st.conversation.map (fun chain => (runChain oracle retrieve chain question_input.question).1.usedLLM)

/-! ## `compare_reports`. -/

/-- Responses of `compare_reports`: 200 with comparison and per-file
summaries, 400 `"Please select exactly 2 PDFs for comparison."`, or 404. -/
inductive CompareResponse where
  | ok (comparison : String) (summaries : List (String × String))
  | invalidCount
  | fileNotFound (name : String)
deriving DecidableEq, Repr

/-- Externally visible work of a compare request: a PDF text extraction or a
prompt submitted to a backend. -/
inductive Effect where
  | extractPdf (path : String)
  | llmCall (llm : LLM) (prompt : String)
deriving DecidableEq, Repr

/-- The per-document half of `compare_reports`: extract, chunk, join with
spaces, and ask the LLM for a summary.  Returns the summary plus the work
performed. -/
def summarizeOne (oracle : LLM → String → String) (st : AppState) (llm : LLM)
    (path : String) : String × List Effect :=
  let raw_text := (get_pdf_text [(path, (dictGet st.files path).getD ⟨[]⟩)]).1
  let text_chunks := get_chunks raw_text
  let combined_text :=
    String.intercalate " " (text_chunks.map (fun c => String.mk c.page_content))
  let prompt := "Summarize the following market research report in a concise paragraph:\n\n" ++
    combined_text
  (oracle llm prompt, [.extractPdf path, .llmCall llm prompt])

/-- `api.compare_reports`: the `len(pdf_files) != 2` guard fires before any
path resolution, extraction or LLM work; otherwise resolve both paths, check
existence in order, summarize each document independently, then request the
comparison. -/
def compare_reports (oracle : LLM → String → String) (st : AppState)
    (llm_choice : String) (pdf_files : List String) : CompareResponse × List Effect :=
  match pdf_files with
  | [pdf1, pdf2] =>
    let fp1 := resolvePath st pdf1
    let fp2 := resolvePath st pdf2
    if (dictGet st.files fp1).isNone then (.fileNotFound (basename fp1), [])
    else if (dictGet st.files fp2).isNone then (.fileNotFound (basename fp2), [])
    else
      let llm := get_llm llm_choice
      let r1 := summarizeOne oracle st llm fp1
      let r2 := summarizeOne oracle st llm fp2
      let compare_prompt :=
        "Compare the following two market research reports and highlight their " ++
        "similarities, differences, and key insights:\n\nReport 1 Summary:\n" ++ r1.1 ++
        "\n\nReport 2 Summary:\n" ++ r2.1 ++ "\n\nComparison:"
      (.ok (oracle llm compare_prompt) [(pdf1, r1.1), (pdf2, r2.1)],
        r1.2 ++ r2.2 ++ [.llmCall llm compare_prompt])
  | _ => (.invalidCount, [])

/-! ## Concrete fixtures used by witnesses and counterexamples. -/

/-- A trivial completion oracle. -/
def oracle0 : LLM → String → String := fun _ _ => "ans"

/-- A trivial retriever. -/
def retrieve0 : Vectorstore → String → List Document := fun _ _ => []

/-- A page whose direct extraction succeeds with the text `"hello"`. -/
def pageHello : PdfPage := ⟨chars "hello", .ok []⟩

/-- A one-page PDF. -/
def pdfHello : PdfFile := ⟨[pageHello]⟩

/-- State after uploading `a.pdf` (one registered, stored file). -/
def stHello : AppState :=
  ⟨none, [("a.pdf", filePathFor "a.pdf")], [(filePathFor "a.pdf", pdfHello)]⟩

/-- State after building an index over `a.pdf` with the Mixtral backend. -/
def stMixtral : AppState := (process_pdfs stHello "Mixtral" ["a.pdf"]).2

/-- The conversation chain `stMixtral` holds. -/
def chainMixtral : ConversationChain :=
  ⟨.mixtral_llm, ⟨[⟨chars "hello", ⟨filePathFor "a.pdf", 1⟩⟩]⟩, []⟩

/-- A chain built over the `"hello"` index with the Phi backend. -/
def chainPhi : ConversationChain :=
  get_conversation_chain ⟨[⟨chars "hello", ⟨filePathFor "a.pdf", 1⟩⟩]⟩ "Phi"

/-- A state with a live conversation but no stored files. -/
def stActive : AppState := ⟨some chainPhi, [], []⟩

/-- 1001 copies of `'a'`: a single separator-free segment longer than
`chunk_size`. -/
def longLine : List Char := List.replicate 1001 'a'

/-- A PDF with no pages. -/
def pdfEmptyFile : PdfFile := ⟨[]⟩

/-! ## Shared helper lemmas. -/

theorem dictGet_dictInsert_self {α : Type} (k : String) (v : α) (d : List (String × α)) :
    dictGet (dictInsert k v d) k = some v := by
  induction d with
  | nil => simp [dictInsert, dictGet]
  | cons p rest ih =>
    by_cases h : p.1 = k
    · simp [dictInsert, h, dictGet]
    · simp [dictInsert, h, dictGet, ih]

theorem mem_keys_dictInsert {α : Type} (x k : String) (v : α) (d : List (String × α)) :
    x ∈ (dictInsert k v d).map Prod.fst → x = k ∨ x ∈ d.map Prod.fst := by
  induction d with
  | nil => simp [dictInsert]
  | cons p rest ih =>
    by_cases h : p.1 = k
    · simp only [dictInsert, h, if_pos]
      intro hx
      rcases List.mem_cons.1 hx with h1 | h1
      · exact Or.inl h1
      · exact Or.inr (List.mem_cons.2 (Or.inr h1))
    · simp only [dictInsert, h, if_neg, not_false_iff]
      intro hx
      rcases List.mem_cons.1 hx with h1 | h1
      · exact Or.inr (List.mem_cons.2 (Or.inl h1))
      · rcases ih h1 with h2 | h2
        · exact Or.inl h2
        · exact Or.inr (List.mem_cons.2 (Or.inr h2))

theorem nodup_keys_dictInsert {α : Type} (k : String) (v : α) (d : List (String × α))
    (h : (d.map Prod.fst).Nodup) : ((dictInsert k v d).map Prod.fst).Nodup := by
  induction d with
  | nil => simp [dictInsert]
  | cons p rest ih =>
    rw [List.map_cons, List.nodup_cons] at h
    by_cases hk : p.1 = k
    · simp only [dictInsert, hk, if_pos, List.map_cons, List.nodup_cons]
      exact ⟨hk ▸ h.1, h.2⟩
    · simp only [dictInsert, hk, if_neg, not_false_iff, List.map_cons, List.nodup_cons]
      refine ⟨?_, ih h.2⟩
      intro hmem
      rcases mem_keys_dictInsert p.1 k v rest hmem with h1 | h1
      · exact hk h1
      · exact h.1 h1

theorem compare_invalidCount (oracle : LLM → String → String) (st : AppState)
    (lc : String) (pf : List String) (h : pf.length ≠ 2) :
    compare_reports oracle st lc pf = (.invalidCount, []) := by
  cases pf with
  | nil => rfl
  | cons a t =>
    cases t with
    | nil => rfl
    | cons b t2 =>
      cases t2 with
      | nil => exact absurd rfl h
      | cons c t3 => rfl

/-! ## Claim theorems. -/

/-- C2: backend resolution is total — `"Llama 3.1"` and `"Mixtral"` map to
their backends, and every other identifier string maps to the default `phi`
backend rather than erroring. -/
theorem C2_get_llm_total :
    get_llm "Llama 3.1" = .llama3 ∧ get_llm "Mixtral" = .mixtral_llm ∧
    ∀ s : String, s ≠ "Llama 3.1" → s ≠ "Mixtral" → get_llm s = .phi := by
  refine ⟨rfl, rfl, ?_⟩
  intro s h1 h2
  simp [get_llm, h1, h2]

/-- Witness for C2 at the unrecognized identifier `"GPT-4"`. -/
theorem C2_get_llm_total_witness :
    ("GPT-4" : String) ≠ "Llama 3.1" ∧ ("GPT-4" : String) ≠ "Mixtral" ∧
    get_llm "GPT-4" = .phi :=
  ⟨by decide, by decide, C2_get_llm_total.2.2 "GPT-4" (by decide) (by decide)⟩

/-- C4: a question submitted while no conversation chain exists
(`Uninitialized`) returns the 400 not-ready error with the state unchanged,
and never an `ok` (default or empty) answer. -/
theorem C4_ask_before_build (oracle : LLM → String → String)
    (retrieve : Vectorstore → String → List Document)
    (st : AppState) (qi : QuestionInput) (h : st.conversation = none) :
    ask_question oracle retrieve st qi =
      (.notReady "No conversation chain found. Process PDFs first.", st) ∧
    ∀ a hist src, (ask_question oracle retrieve st qi).1 ≠ .ok a hist src := by
  refine ⟨by simp [ask_question, h], ?_⟩
  intro a hist src hcon
  rw [ask_question, h] at hcon
  simp at hcon

/-- Witness for C4 at the empty initial state. -/
theorem C4_ask_before_build_witness :
    (⟨none, [], []⟩ : AppState).conversation = none ∧
    ask_question oracle0 retrieve0 ⟨none, [], []⟩ ⟨"What is this?", "Phi"⟩ =
      (.notReady "No conversation chain found. Process PDFs first.", ⟨none, [], []⟩) :=
  ⟨rfl, (C4_ask_before_build oracle0 retrieve0 ⟨none, [], []⟩ ⟨"What is this?", "Phi"⟩ rfl).1⟩

/-- C8: the chunker maps the empty input to the empty output without error;
the indexer rejects an empty chunk list with the `ValueError`; and a build
whose selected files all exist but produce zero chunks fails with the 500
error, leaving the state unchanged, rather than installing an empty index. -/
theorem C8_empty_chunks :
    get_chunks [] = [] ∧
    get_vectorstore [] = .error "No text chunks provided to generate embeddings." ∧
    ∀ (st : AppState) (lc : String) (pf : List String),
      (pf.map (resolvePath st)).find? (fun p => (dictGet st.files p).isNone) = none →
      get_chunks (get_pdf_text ((pf.map (resolvePath st)).map
        (fun p => (p, (dictGet st.files p).getD ⟨[]⟩)))).1 = [] →
      process_pdfs st lc pf =
        (.err "Error processing PDFs: No text chunks provided to generate embeddings.", st) := by
  refine ⟨rfl, rfl, ?_⟩
  intro st lc pf h1 h2
  simp only [process_pdfs, h1, h2, get_vectorstore, List.isEmpty_nil]
  rfl

/-- Witness for C8: a build over an empty document selection. -/
theorem C8_empty_chunks_witness :
    (([] : List String).map (resolvePath ⟨none, [], []⟩)).find?
      (fun p => (dictGet (⟨none, [], []⟩ : AppState).files p).isNone) = none ∧
    process_pdfs ⟨none, [], []⟩ "Phi" [] =
      (.err "Error processing PDFs: No text chunks provided to generate embeddings.",
        ⟨none, [], []⟩) :=
  ⟨rfl, C8_empty_chunks.2.2 ⟨none, [], []⟩ "Phi" [] rfl rfl⟩

/-- C9: a compare request with a document count other than 2 fails with the
input-validation error, performs no extraction or LLM work (empty effect
list), and never returns a (partial) comparison. -/
theorem C9_compare_pairwise_only (oracle : LLM → String → String) (st : AppState)
    (lc : String) (pdf_files : List String) (h : pdf_files.length ≠ 2) :
    compare_reports oracle st lc pdf_files = (.invalidCount, []) ∧
    ∀ c s, (compare_reports oracle st lc pdf_files).1 ≠ .ok c s := by
  have h0 := compare_invalidCount oracle st lc pdf_files h
  refine ⟨h0, ?_⟩
  intro c s hcon
  rw [h0] at hcon
  simp at hcon

/-- Witness for C9 at a one-element selection. -/
theorem C9_compare_pairwise_only_witness :
    (["single.pdf"] : List String).length ≠ 2 ∧
    compare_reports oracle0 ⟨none, [], []⟩ "Phi" ["single.pdf"] = (.invalidCount, []) :=
  ⟨by decide,
    (C9_compare_pairwise_only oracle0 ⟨none, [], []⟩ "Phi" ["single.pdf"] (by decide)).1⟩

/-- C10: uploading a file under an already-registered filename overwrites the
stored file at the same path and replaces the registry entry; the registry
keeps at most one binding per filename. -/
theorem C10_reupload_overwrites (st : AppState) (n : String) (content : PdfFile)
    (hpdf : endsWithPdf n = true) (hnodup : (st.registry.map Prod.fst).Nodup) :
    dictGet (upload_pdfs st [⟨n, content⟩]).2.registry n = some (filePathFor n) ∧
    dictGet (upload_pdfs st [⟨n, content⟩]).2.files (filePathFor n) = some content ∧
    ((upload_pdfs st [⟨n, content⟩]).2.registry.map Prod.fst).Nodup := by
  simp only [upload_pdfs, uploadLoop, hpdf, if_pos]
  exact ⟨dictGet_dictInsert_self n (filePathFor n) st.registry,
    dictGet_dictInsert_self (filePathFor n) content st.files,
    nodup_keys_dictInsert n (filePathFor n) st.registry hnodup⟩

/-- Witness for C10: re-uploading `a.pdf` over `stHello`, which already
registers and stores it. -/
theorem C10_reupload_overwrites_witness :
    endsWithPdf "a.pdf" = true ∧
    dictGet (upload_pdfs stHello [⟨"a.pdf", pdfEmptyFile⟩]).2.registry "a.pdf" =
      some (filePathFor "a.pdf") ∧
    dictGet (upload_pdfs stHello [⟨"a.pdf", pdfEmptyFile⟩]).2.files (filePathFor "a.pdf") =
      some pdfEmptyFile :=
  ⟨by decide,
    (C10_reupload_overwrites stHello "a.pdf" pdfEmptyFile (by decide) (by decide)).1,
    (C10_reupload_overwrites stHello "a.pdf" pdfEmptyFile (by decide) (by decide)).2.1⟩

theorem extract_pages_length (pdf : String) :
    ∀ (n : Nat) (ps : List PdfPage), (extract_pages pdf n ps).1.length = ps.length := by
  intro n ps
  induction ps generalizing n with
  | nil => rfl
  | cons p ps ih => simp [extract_pages, ih]

theorem get_pdf_text_length (docs : List (String × PdfFile)) :
    (get_pdf_text docs).1.length = (docs.map (fun d => d.2.pages.length)).sum := by
  induction docs with
  | nil => rfl
  | cons d rest ih => simp [get_pdf_text, extract_pages_length, ih]

/-- C7: extraction is total — one `Document` per page of every file, so one
page's OCR failure never aborts the batch — and a page whose direct
extraction is blank and whose OCR attempt raises degrades to an empty-text
`Document` carrying its source and page number, plus the OCR-failure
warning. -/
theorem C7_ocr_failure_degrades (docs : List (String × PdfFile)) (pdf : String)
    (n : Nat) (pg : PdfPage) (msg : String)
    (hblank : pyStrip pg.extracted = [])
    (hocr : pg.ocr = .raised msg) :
    (get_pdf_text docs).1.length = (docs.map (fun d => d.2.pages.length)).sum ∧
    (extract_page pdf n pg).1 = ⟨[], ⟨pdf, n⟩⟩ ∧
    ("Warning: OCR failed for page " ++ toString n ++ " in " ++ pdf ++ ": " ++ msg)
      ∈ (extract_page pdf n pg).2 := by
  have hcond : ¬(pg.extracted ≠ [] ∧ pyStrip pg.extracted ≠ []) := by
    intro hc
    exact hc.2 hblank
  refine ⟨get_pdf_text_length docs, ?_, ?_⟩
  · simp only [extract_page, hocr, if_neg hcond]
  · simp only [extract_page, hocr, if_neg hcond]
    have hx : pyStrip ([] : List Char) = [] := rfl
    rw [if_pos hx]
    simp

/-- Witness for C7: a one-page document whose page is unreadable and whose
OCR raises. -/
theorem C7_ocr_failure_degrades_witness :
    pyStrip (PdfPage.mk [] (.raised "boom")).extracted = [] ∧
    (extract_page "a.pdf" 1 ⟨[], .raised "boom"⟩).1 = ⟨[], ⟨"a.pdf", 1⟩⟩ ∧
    ("Warning: OCR failed for page " ++ toString 1 ++ " in " ++ "a.pdf" ++ ": " ++ "boom")
      ∈ (extract_page "a.pdf" 1 ⟨[], .raised "boom"⟩).2 :=
  ⟨rfl,
    (C7_ocr_failure_degrades [] "a.pdf" 1 ⟨[], .raised "boom"⟩ "boom" rfl rfl).2.1,
    (C7_ocr_failure_degrades [] "a.pdf" 1 ⟨[], .raised "boom"⟩ "boom" rfl rfl).2.2⟩

/-- C1 counterexample: after building with `"Mixtral"`, an ask request naming
`"Llama 3.1"` is still answered by the Mixtral backend — the per-request
backend parameter does not determine the backend used. -/
theorem C1_counterexample :
    askUsedLLM oracle0 retrieve0 stMixtral ⟨"What is this?", "Llama 3.1"⟩ =
      some .mixtral_llm ∧
    get_llm "Llama 3.1" = .llama3 ∧ LLM.mixtral_llm ≠ LLM.llama3 := by
  refine ⟨by decide, rfl, by decide⟩

/-- C1 (amended): the ask request's `llm_choice` field is ignored — the
response is identical for any two backend identifiers, the backend used is
the one fixed in the chain at the most recent successful build, and the
conversation history is appended to (not reset) by the question. -/
theorem C1_llm_choice_ignored (oracle : LLM → String → String)
    (retrieve : Vectorstore → String → List Document) (st : AppState)
    (q l1 l2 : String) (chain : ConversationChain)
    (h : st.conversation = some chain) :
    ask_question oracle retrieve st ⟨q, l1⟩ = ask_question oracle retrieve st ⟨q, l2⟩ ∧
    askUsedLLM oracle retrieve st ⟨q, l1⟩ = some chain.llm ∧
    ∃ ans, (ask_question oracle retrieve st ⟨q, l1⟩).2.conversation =
      some ⟨chain.llm, chain.retriever, chain.memory ++ [(q, ans)]⟩ := by
  refine ⟨rfl, ?_, ?_⟩
  · simp [askUsedLLM, h, runChain]
  · exact ⟨(runChain oracle retrieve chain q).1.answer, by simp [ask_question, h, runChain]⟩

/-- Witness for the amended C1 over the Mixtral-built state. -/
theorem C1_llm_choice_ignored_witness :
    stMixtral.conversation = some chainMixtral ∧
    askUsedLLM oracle0 retrieve0 stMixtral ⟨"What is this?", "Llama 3.1"⟩ =
      some chainMixtral.llm :=
  ⟨by decide,
    (C1_llm_choice_ignored oracle0 retrieve0 stMixtral "What is this?" "Llama 3.1" "Phi"
      chainMixtral (by decide)).2.1⟩

/-- C3 counterexample: starting a build that fails (here: a missing file)
does not discard the existing index/conversation — the state is unchanged,
not `Uninitialized`. -/
theorem C3_counterexample :
    (process_pdfs stActive "Phi" ["missing.pdf"]).1 = .fileNotFound "missing.pdf" ∧
    (process_pdfs stActive "Phi" ["missing.pdf"]).2 = stActive ∧
    stActive.conversation ≠ none := by
  decide

/-- C3 (amended): a build replaces the index and the conversation together,
atomically, in one assignment of the combined chain — new index with fresh
empty memory — but only upon successful completion; a build that fails at any
stage leaves the previous index/conversation pair fully intact (the old pair
is discarded on success, not at the start of the build). -/
theorem C3_build_replaces_on_success (st : AppState) (lc : String) (pf : List String) :
    (∃ vs : Vectorstore,
      (process_pdfs st lc pf).1 = .ok lc ∧
      (process_pdfs st lc pf).2 = { st with conversation := some ⟨get_llm lc, vs, []⟩ }) ∨
    ((∀ l, (process_pdfs st lc pf).1 ≠ .ok l) ∧ (process_pdfs st lc pf).2 = st) := by
  cases hf : (pf.map (resolvePath st)).find? (fun p => (dictGet st.files p).isNone) with
  | some p =>
    right
    have he : process_pdfs st lc pf = (.fileNotFound (basename p), st) := by
      simp only [process_pdfs, hf]
    rw [he]
    exact ⟨fun l h => ProcessResponse.noConfusion h, rfl⟩
  | none =>
    cases hv : get_vectorstore (get_chunks (get_pdf_text ((pf.map (resolvePath st)).map
        (fun p => (p, (dictGet st.files p).getD ⟨[]⟩)))).1) with
    | error e =>
      right
      have he : process_pdfs st lc pf = (.err ("Error processing PDFs: " ++ e), st) := by
        simp only [process_pdfs, hf, hv]
      rw [he]
      exact ⟨fun l h => ProcessResponse.noConfusion h, rfl⟩
    | ok vs =>
      left
      have he : process_pdfs st lc pf =
          (.ok lc, { st with conversation := some (get_conversation_chain vs lc) }) := by
        simp only [process_pdfs, hf, hv]
      rw [he]
      exact ⟨vs, rfl, rfl⟩

theorem uploadLoop_stops_at_bad (bad : UploadFile) (rest : List UploadFile)
    (hbad : endsWithPdf bad.filename = false) :
    ∀ (pre : List UploadFile) (fs : List (String × PdfFile))
      (reg : List (String × String)) (saved : List String),
      (∀ f ∈ pre, endsWithPdf f.filename = true) →
      uploadLoop fs reg saved (pre ++ bad :: rest) =
        (.notPdf bad.filename,
          (uploadLoop fs reg saved pre).2.1, (uploadLoop fs reg saved pre).2.2) := by
  intro pre
  induction pre with
  | nil =>
    intro fs reg saved _
    simp [uploadLoop, hbad]
  | cons f t ih =>
    intro fs reg saved hpre
    have hf : endsWithPdf f.filename = true := hpre f (by simp)
    simp only [List.cons_append, uploadLoop, hf, if_pos]
    exact ih _ _ _ (fun g hg => hpre g (by simp [hg]))

/-- C6 counterexample: an upload batch `[good.pdf, notes.txt]` is rejected
with the non-PDF error, yet `good.pdf` has already been saved and registered
— the abort is not free of partial state mutation. -/
theorem C6_counterexample :
    (upload_pdfs ⟨none, [], []⟩
      [⟨"good.pdf", pdfEmptyFile⟩, ⟨"notes.txt", pdfEmptyFile⟩]).1 = .notPdf "notes.txt" ∧
    dictGet (upload_pdfs ⟨none, [], []⟩
      [⟨"good.pdf", pdfEmptyFile⟩, ⟨"notes.txt", pdfEmptyFile⟩]).2.registry "good.pdf" =
      some "/tmp/uploaded_pdfs/good.pdf" ∧
    (upload_pdfs ⟨none, [], []⟩
      [⟨"good.pdf", pdfEmptyFile⟩, ⟨"notes.txt", pdfEmptyFile⟩]).2 ≠
      (⟨none, [], []⟩ : AppState) := by
  decide

/-- C6 (amended): validation is per-file, in order — the upload aborts with
the validation error at the first non-PDF without saving or registering that
file or any later file, but files preceding the first non-PDF in the batch
have already been saved and registered; the compare document-count check
still aborts before any state mutation or extraction/LLM work. -/
theorem C6_validation_aborts (st : AppState) (pre : List UploadFile) (bad : UploadFile)
    (rest : List UploadFile) (hpre : ∀ f ∈ pre, endsWithPdf f.filename = true)
    (hbad : endsWithPdf bad.filename = false) :
    (upload_pdfs st (pre ++ bad :: rest)).1 = .notPdf bad.filename ∧
    (upload_pdfs st (pre ++ bad :: rest)).2 = (upload_pdfs st pre).2 ∧
    ∀ (oracle : LLM → String → String) (lc : String) (pf : List String),
      pf.length ≠ 2 → compare_reports oracle st lc pf = (.invalidCount, []) := by
  have h := uploadLoop_stops_at_bad bad rest hbad pre st.files st.registry [] hpre
  refine ⟨?_, ?_, fun oracle lc pf hl => compare_invalidCount oracle st lc pf hl⟩
  · simp [upload_pdfs, h]
  · simp [upload_pdfs, h]

/-- Witness for the amended C6 on a concrete mixed batch. -/
theorem C6_validation_aborts_witness :
    (∀ f ∈ [(⟨"good.pdf", pdfEmptyFile⟩ : UploadFile)], endsWithPdf f.filename = true) ∧
    endsWithPdf "notes.txt" = false ∧
    (upload_pdfs stHello [⟨"good.pdf", pdfEmptyFile⟩, ⟨"notes.txt", pdfEmptyFile⟩]).1 =
      .notPdf "notes.txt" :=
  ⟨by decide, by decide,
    (C6_validation_aborts stHello [⟨"good.pdf", pdfEmptyFile⟩] ⟨"notes.txt", pdfEmptyFile⟩
      [] (by decide) (by decide)).1⟩

/-! ## C5: chunk-size bounds for the splitter. -/

theorem length_dropWhile_le (p : Char → Bool) (s : List Char) :
    (s.dropWhile p).length ≤ s.length := by
  induction s with
  | nil => simp
  | cons c rest ih =>
    by_cases h : p c
    · rw [List.dropWhile_cons_of_pos h]
      exact Nat.le_trans ih (Nat.le_succ _)
    · rw [List.dropWhile_cons_of_neg h]

theorem pyStrip_length_le (s : List Char) : (pyStrip s).length ≤ s.length := by
  unfold pyStrip
  rw [List.length_reverse]
  calc ((s.dropWhile pyIsSpace).reverse.dropWhile pyIsSpace).length
      ≤ (s.dropWhile pyIsSpace).reverse.length := length_dropWhile_le _ _
    _ = (s.dropWhile pyIsSpace).length := List.length_reverse _
    _ ≤ s.length := length_dropWhile_le _ _

theorem joinSep_cons (d : List Char) (ds : List (List Char)) (h : ds ≠ []) :
    joinSep (d :: ds) = d ++ '\n' :: joinSep ds := by
  cases ds with
  | nil => exact absurd rfl h
  | cons e es => rfl

theorem joinSep_length_pos (cd : List (List Char)) (h : cd ≠ [])
    (hx : ∀ x ∈ cd, x ≠ []) : 0 < (joinSep cd).length := by
  cases cd with
  | nil => exact absurd rfl h
  | cons c rest =>
    cases rest with
    | nil =>
      have hc : c ≠ [] := hx c (by simp)
      have : joinSep [c] = c := rfl
      rw [this]
      exact List.length_pos.2 hc
    | cons e es =>
      rw [joinSep_cons c (e :: es) (by simp)]
      simp

theorem joinSep_length_append (xs : List (List Char)) (d : List Char) (h : xs ≠ []) :
    (joinSep (xs ++ [d])).length = (joinSep xs).length + 1 + d.length := by
  induction xs with
  | nil => exact absurd rfl h
  | cons x t ih =>
    cases t with
    | nil =>
      have h1 : joinSep ([x] ++ [d]) = x ++ '\n' :: joinSep [d] := rfl
      have h2 : joinSep [d] = d := rfl
      have h3 : joinSep [x] = x := rfl
      rw [h1, h2, h3]
      simp
      omega
    | cons y ys =>
      have ht : (y :: ys : List (List Char)) ≠ [] := by simp
      have ht2 : ((y :: ys : List (List Char)) ++ [d]) ≠ [] := by simp
      rw [List.cons_append, joinSep_cons x ((y :: ys) ++ [d]) ht2,
        joinSep_cons x (y :: ys) ht]
      simp only [List.length_append, List.length_cons]
      rw [ih ht]
      omega

theorem joinDocs_some_length (cd : List (List Char)) (doc : List Char)
    (h : joinDocs cd = some doc) : doc.length ≤ (joinSep cd).length := by
  unfold joinDocs at h
  by_cases he : pyStrip (joinSep cd) = []
  · simp [he] at h
  · simp only [he, if_neg, not_false_iff, Option.some.injEq] at h
    rw [← h]
    exact pyStrip_length_le _

theorem popWhile_spec (cs co dLen : Nat) :
    ∀ (cd : List (List Char)) (total : Nat),
      total = (joinSep cd).length → (∀ x ∈ cd, x ≠ []) →
      (popWhile cs co dLen cd total).2 = (joinSep (popWhile cs co dLen cd total).1).length ∧
      (∀ x ∈ (popWhile cs co dLen cd total).1, x ≠ []) ∧
      ((popWhile cs co dLen cd total).1 = [] ∨
        ((popWhile cs co dLen cd total).2 ≤ co ∧
          ((popWhile cs co dLen cd total).2 + dLen + 1 ≤ cs ∨
            (popWhile cs co dLen cd total).2 = 0))) := by
  intro cd
  induction cd with
  | nil =>
    intro total htot hx
    refine ⟨?_, by simp [popWhile], Or.inl rfl⟩
    simpa [popWhile] using htot
  | cons c rest ih =>
    intro total htot hx
    by_cases hcond : co < total ∨ (cs < total + dLen + 1 ∧ 0 < total)
    · have hstep : popWhile cs co dLen (c :: rest) total =
          popWhile cs co dLen rest (total - (c.length + if rest.isEmpty then 0 else 1)) := by
        simp [popWhile, hcond]
      rw [hstep]
      apply ih
      · cases rest with
        | nil =>
          have h1 : joinSep [c] = c := rfl
          rw [h1] at htot
          simp [joinSep]
          omega
        | cons e es =>
          rw [joinSep_cons c (e :: es) (by simp)] at htot
          simp at htot ⊢
          omega
      · exact fun x hxm => hx x (by simp [hxm])
    · have hstep : popWhile cs co dLen (c :: rest) total = (c :: rest, total) := by
        simp [popWhile, hcond]
      rw [hstep]
      push_neg at hcond
      refine ⟨htot, hx, Or.inr ⟨hcond.1, ?_⟩⟩
      by_cases h2 : cs < total + dLen + 1
      · have h3 := hcond.2 h2
        exact Or.inr (by omega)
      · exact Or.inl (by omega)

theorem mergeSplits_chunk_le (cs co : Nat) :
    ∀ (splits cd : List (List Char)) (total : Nat) (docs : List (List Char)),
      (∀ d ∈ splits, d ≠ [] ∧ d.length ≤ cs) →
      total = (joinSep cd).length → total ≤ cs → (∀ x ∈ cd, x ≠ []) →
      (∀ c ∈ docs, c.length ≤ cs) →
      ∀ c ∈ mergeSplits cs co splits cd total docs, c.length ≤ cs := by
  intro splits
  induction splits with
  | nil =>
    intro cd total docs _ htot hle hx hdocs c hc
    rcases hjd : joinDocs cd with _ | doc
    · rw [show mergeSplits cs co [] cd total docs = docs by simp [mergeSplits, hjd]] at hc
      exact hdocs c hc
    · rw [show mergeSplits cs co [] cd total docs = docs ++ [doc] by
        simp [mergeSplits, hjd]] at hc
      rcases List.mem_append.1 hc with h1 | h1
      · exact hdocs c h1
      · have : c = doc := by simpa using h1
        subst this
        exact Nat.le_trans (joinDocs_some_length cd c hjd) (htot ▸ hle)
  | cons d rest ih =>
    intro cd total docs hsplits htot hle hx hdocs
    have hd : d ≠ [] ∧ d.length ≤ cs := hsplits d (by simp)
    have hrest : ∀ e ∈ rest, e ≠ [] ∧ e.length ≤ cs := fun e he => hsplits e (by simp [he])
    by_cases hov : cs < total + d.length + (if cd.isEmpty then 0 else 1)
    · by_cases hemp : cd.isEmpty
      · -- unreachable under the segment bound: cd = [], total = 0, yet d overflows
        have hcd : cd = [] := List.isEmpty_iff.1 hemp
        subst hcd
        have h0 : total = 0 := by simpa [joinSep] using htot
        rw [hemp] at hov
        simp at hov
        omega
      · rcases hjd : joinDocs cd with _ | doc
        · have hstep : mergeSplits cs co (d :: rest) cd total docs =
              mergeSplits cs co rest ((popWhile cs co d.length cd total).1 ++ [d])
                ((popWhile cs co d.length cd total).2 + d.length +
                  (if (popWhile cs co d.length cd total).1.isEmpty then 0 else 1)) docs := by
            simp only [mergeSplits]
            rw [if_pos hov, if_neg hemp, hjd]
          rw [hstep]
          obtain ⟨hw1, hw2, hw3⟩ := popWhile_spec cs co d.length cd total htot hx
          apply ih _ _ _ hrest ?_ ?_ ?_ hdocs
          · by_cases hpe : (popWhile cs co d.length cd total).1 = []
            · rw [hpe] at hw1 ⊢
              simp [joinSep] at hw1 ⊢
              omega
            · rw [joinSep_length_append _ _ hpe]
              simp [List.isEmpty_iff, hpe]
              omega
          · by_cases hpe : (popWhile cs co d.length cd total).1 = []
            · rw [hpe]
              simp [List.isEmpty_iff]
              have : (popWhile cs co d.length cd total).2 = 0 := by
                rw [hw1, hpe]
                rfl
              omega
            · rcases hw3 with h1 | h1
              · exact absurd h1 hpe
              · rcases h1.2 with h2 | h2
                · simp [List.isEmpty_iff, hpe]
                  omega
                · have hpos := joinSep_length_pos _ hpe hw2
                  rw [← hw1] at hpos
                  omega
          · intro x hxm
            rcases List.mem_append.1 hxm with h1 | h1
            · exact hw2 x h1
            · have : x = d := by simpa using h1
              subst this
              exact hd.1
        · have hstep : mergeSplits cs co (d :: rest) cd total docs =
              mergeSplits cs co rest ((popWhile cs co d.length cd total).1 ++ [d])
                ((popWhile cs co d.length cd total).2 + d.length +
                  (if (popWhile cs co d.length cd total).1.isEmpty then 0 else 1))
                (docs ++ [doc]) := by
            simp only [mergeSplits]
            rw [if_pos hov, if_neg hemp, hjd]
          rw [hstep]
          obtain ⟨hw1, hw2, hw3⟩ := popWhile_spec cs co d.length cd total htot hx
          apply ih _ _ _ hrest ?_ ?_ ?_ ?_
          · by_cases hpe : (popWhile cs co d.length cd total).1 = []
            · rw [hpe] at hw1 ⊢
              simp [joinSep] at hw1 ⊢
              omega
            · rw [joinSep_length_append _ _ hpe]
              simp [List.isEmpty_iff, hpe]
              omega
          · by_cases hpe : (popWhile cs co d.length cd total).1 = []
            · rw [hpe]
              simp [List.isEmpty_iff]
              have : (popWhile cs co d.length cd total).2 = 0 := by
                rw [hw1, hpe]
                rfl
              omega
            · rcases hw3 with h1 | h1
              · exact absurd h1 hpe
              · rcases h1.2 with h2 | h2
                · simp [List.isEmpty_iff, hpe]
                  omega
                · have hpos := joinSep_length_pos _ hpe hw2
                  rw [← hw1] at hpos
                  omega
          · intro x hxm
            rcases List.mem_append.1 hxm with h1 | h1
            · exact hw2 x h1
            · have : x = d := by simpa using h1
              subst this
              exact hd.1
          · intro c hc
            rcases List.mem_append.1 hc with h1 | h1
            · exact hdocs c h1
            · have : c = doc := by simpa using h1
              subst this
              exact Nat.le_trans (joinDocs_some_length cd c hjd) (htot ▸ hle)
    · have hstep : mergeSplits cs co (d :: rest) cd total docs =
          mergeSplits cs co rest (cd ++ [d])
            (total + d.length + (if cd.isEmpty then 0 else 1)) docs := by
        simp only [mergeSplits]
        rw [if_neg hov]
      rw [hstep]
      apply ih _ _ _ hrest ?_ (by omega) ?_ hdocs
      · by_cases hce : cd = []
        · subst hce
          simp [joinSep] at htot ⊢
          omega
        · rw [joinSep_length_append _ _ hce]
          simp [List.isEmpty_iff, hce]
          omega
      · intro x hxm
        rcases List.mem_append.1 hxm with h1 | h1
        · exact hx x h1
        · have : x = d := by simpa using h1
          subst this
          exact hd.1

theorem splitTextWithSep_ne_nil (t : List Char) :
    ∀ seg ∈ splitTextWithSep t, seg ≠ [] := by
  intro seg hseg
  have := List.of_mem_filter hseg
  simpa using this

/-- C5 counterexample: a page whose text is a single 1001-character line with
no separator is emitted as one chunk of length 1001 — there is no raw
length-based slicing fallback, so a produced chunk can exceed
`chunk_size = 1000`. -/
theorem C5_counterexample :
    get_chunks [⟨longLine, ⟨"a.pdf", 1⟩⟩] = [⟨longLine, ⟨"a.pdf", 1⟩⟩] ∧
    ∃ c ∈ get_chunks [⟨longLine, ⟨"a.pdf", 1⟩⟩], 1000 < c.page_content.length := by
  have h1 : get_chunks [⟨longLine, ⟨"a.pdf", 1⟩⟩] = [⟨longLine, ⟨"a.pdf", 1⟩⟩] := by decide
  refine ⟨h1, ⟨longLine, ⟨"a.pdf", 1⟩⟩, ?_, by decide⟩
  rw [h1]
  exact List.mem_singleton.2 rfl

/-- C5 (amended): splitting is on the configured separator only — an
over-long separator-free segment is emitted whole — and whenever every
separator-delimited segment of every page has length at most
`chunk_size = 1000`, every produced chunk's text length is at most 1000. -/
theorem C5_chunk_bound (docs : List Document)
    (h : ∀ d ∈ docs, ∀ seg ∈ splitTextWithSep d.page_content, seg.length ≤ 1000) :
    ∀ c ∈ get_chunks docs, c.page_content.length ≤ 1000 := by
  intro c hc
  unfold get_chunks split_documents at hc
  rw [List.mem_flatten] at hc
  obtain ⟨l, hl, hcl⟩ := hc
  rw [List.mem_map] at hl
  obtain ⟨doc, hdoc, rfl⟩ := hl
  rw [List.mem_map] at hcl
  obtain ⟨seg, hseg, rfl⟩ := hcl
  have hb := mergeSplits_chunk_le 1000 200 (splitTextWithSep doc.page_content) [] 0 []
    (fun e he => ⟨splitTextWithSep_ne_nil _ e he, h doc hdoc e he⟩) rfl (by omega)
    (by simp) (by simp)
  exact hb seg hseg

/-- Witness for the amended C5 on a short two-line page. -/
theorem C5_chunk_bound_witness :
    (∀ d ∈ [(⟨chars "hello\nworld", ⟨"a.pdf", 1⟩⟩ : Document)],
      ∀ seg ∈ splitTextWithSep d.page_content, seg.length ≤ 1000) ∧
    ∀ c ∈ get_chunks [(⟨chars "hello\nworld", ⟨"a.pdf", 1⟩⟩ : Document)],
      c.page_content.length ≤ 1000 :=
  ⟨by decide, C5_chunk_bound _ (by decide)⟩
